import Mathlib

/-!
Tiny web server (`tiny/tiny.c`): shallow embedding and verification.

The request handler `doit` and the functions it calls are embedded as pure
functions.

* A C string is the list of its bytes (`CStr`), without the terminating NUL.
  Buffers are represented by the string they hold; their capacities
  (`MAXLINE`, `MAXBUF`) are not part of the model.
* `sprintf(buf, "%s...", buf)`, which the source uses to extend a buffer in
  place, is the concatenation of the old contents and the new text.
* The connection is the list of lines that successive `Rio_readlineb` calls
  return; the file system and the CGI programs are fields of `World`.
* What a function does to the outside is a list of `Event`s, in program
  order.  `printf` to the server's own terminal is left out.
* A trace that ends with `Event.exit` is an execution in which the process
  was ended inside the handler, which then does not return to `main`.
* `none` stands for an execution that has no finite trace or that depends on
  memory the program never initialised.
-/

set_option autoImplicit false
set_option maxRecDepth 20000

namespace Tiny

/-- A C string: its bytes, terminating NUL excluded. -/
abbrev CStr := List Nat

/-- The bytes of a string literal of the source (UTF-8, as the file is encoded). -/
def utf8 (s : String) : CStr :=
  s.toList.flatMap fun c => (String.utf8EncodeChar c).map UInt8.toNat

/-- What a `char *` sees in a byte buffer: the bytes before the first NUL. -/
def cstr (bytes : List Nat) : CStr :=
  bytes.takeWhile fun b => b != 0

/-- The function `tolower` in the C locale. -/
def tolower (c : Nat) : Nat :=
  if 65 ≤ c ∧ c ≤ 90 then c + 32 else c

/-- The function `isspace` in the C locale: space, `\t`, `\n`, `\v`, `\f`, `\r`. -/
def isspace (c : Nat) : Bool :=
  c == 32 || (9 ≤ c && c ≤ 13)

/-- The function `strcmp`: zero exactly on equal strings, otherwise the sign of the
first difference. -/
def strcmp : CStr → CStr → Int
  | [], [] => 0
  | [], _ :: _ => -1
  | _ :: _, [] => 1
  | a :: s, b :: t => if a = b then strcmp s t else (a : Int) - (b : Int)

/-- The function `strcasecmp`: `strcmp` on the lower-cased bytes. -/
def strcasecmp : CStr → CStr → Int
  | [], [] => 0
  | [], _ :: _ => -1
  | _ :: _, [] => 1
  | a :: s, b :: t =>
    if tolower a = tolower b then strcasecmp s t else (tolower a : Int) - (tolower b : Int)

/-- The call `strstr(hay, needle)`: the tail of `hay` that starts at the first occurrence of
`needle`, `none` for `NULL`. -/
def strstr (hay needle : CStr) : Option CStr :=
  if needle.isPrefixOf hay then some hay
  else
    match hay with
    | [] => none
    | _ :: t => strstr t needle

/-- The call `index(s, c)`: the offset of the first byte equal to `c`, `none` for `NULL`. -/
def index : CStr → Nat → Option Nat
  | [], _ => none
  | a :: t, c => if a = c then some 0 else (index t c).map fun i => i + 1

/-- Conversion of a non-negative 64-bit quantity (`off_t`, `size_t`) to `int`:
the value modulo `2^32`, read as two's complement. -/
def toInt32 (n : Nat) : Int :=
  if n % 2 ^ 32 < 2 ^ 31 then ((n % 2 ^ 32 : Nat) : Int) else ((n % 2 ^ 32 : Nat) : Int) - 2 ^ 32

/-- The decimal digits of a natural number, as bytes. -/
def decimal (n : Nat) : CStr :=
  (Nat.toDigits 10 n).map Char.toNat

/-- The text `%d` prints for an `int`. -/
def fmt_d : Int → CStr
  | Int.ofNat n => decimal n
  | Int.negSucc n => 45 :: decimal (n + 1)

/-- One `%s` conversion of `sscanf`: skip white space, then take the longest run of
non-space bytes.  `none` when the input ends first. -/
def scan_s (s : CStr) : Option (CStr × CStr) :=
  match (s.dropWhile isspace).span fun b => !isspace b with
  | ([], _) => none
  | (tok, rest) => some (tok, rest)

/-- The conversions `sscanf(buf, "%s %s %s", method, uri, version)` stores, in
order.  Fewer than three entries: the remaining arguments are left untouched. -/
def sscanf3 (buf : CStr) : List CStr :=
  match scan_s buf with
  | none => []
  | some (method, r1) =>
    match scan_s r1 with
    | none => [method]
    | some (uri, r2) =>
      match scan_s r2 with
      | none => [method, uri]
      | some (version, _) => [method, uri, version]

/-- The record `stat` fills in: the two fields `doit` reads. -/
structure Stat where
  st_mode : Nat
  st_size : Nat
  deriving DecidableEq, Repr

/-- The environment of one request. -/
structure World where
  /-- The system call `stat(path, &sbuf)`; `none` when it returns a negative value. -/
  stat : CStr → Option Stat
  /-- The bytes of the file at a path, as `Open` followed by `Mmap` exposes them. -/
  content : CStr → List Nat
  /-- The bytes the program at a path writes to its standard output when it is
  executed with `QUERY_STRING` set to the second argument. -/
  run : CStr → CStr → List Nat
  /-- The size `stat` reports for a path is the number of bytes of the file there. -/
  size_eq : ∀ (p : CStr) (sbuf : Stat), stat p = some sbuf → (content p).length = sbuf.st_size

/-- The actions of the request handler that are visible outside it. -/
inductive Event where
  /-- The call `parse_uri(uri, filename, cgiargs)`. -/
  | resolve (uri : CStr)
  /-- The call `stat(path, &sbuf)`. -/
  | stat (path : CStr)
  /-- The call `Rio_writen(fd, bytes, n)`: bytes sent to the client. -/
  | rio_writen (bytes : List Nat)
  /-- The call `Open(path, O_RDONLY, 0)`. -/
  | fopen (path : CStr)
  /-- The end of the process: a wrapper of `csapp.c` (here `Mmap`) reports the
  failure of its system call with `unix_error`, which calls `exit`. -/
  | exit
  /-- The child process: `setenv("QUERY_STRING", query, 1)`, `Dup2(fd, STDOUT_FILENO)`,
  `Execve(path, emptylist, environ)`; `out` is what the program wrote to the client. -/
  | execve (path query : CStr) (out : List Nat)
  deriving DecidableEq, Repr

/-- The bytes the client receives, in order. -/
def sent : List Event → List Nat
  | [] => []
  | Event.rio_writen b :: t => b ++ sent t
  | Event.execve _ _ out :: t => out ++ sent t
  | _ :: t => sent t

/-- The result of `parse_uri`: its return value and the two output buffers. -/
structure Target where
  is_static : Nat
  filename : CStr
  cgiargs : CStr
  deriving DecidableEq, Repr

/-- The function `parse_uri`.  `before` is the byte stored in front of the `uri`
buffer: `uri[strlen(uri)-1]` reads it when `uri` is empty. -/
def parse_uri (before : Nat) (uri : CStr) : Target :=
  if (strstr uri (utf8 "cgi-bin")).isNone then
    let cgiargs : CStr := utf8 ""
    let filename : CStr := utf8 "."
    let filename := filename ++ uri
    let last := match uri.getLast? with
      | some c => c
      | none => before
    if last = 47 then
      ⟨1, filename ++ utf8 "home.html", cgiargs⟩
    else
      ⟨1, filename, cgiargs⟩
  else
    match index uri 63 with
    | some p => ⟨0, utf8 "." ++ uri.take p, uri.drop (p + 1)⟩
    | none => ⟨0, utf8 "." ++ uri, utf8 ""⟩

/-- The function `get_filetype`. -/
def get_filetype (filename : CStr) : CStr :=
  if (strstr filename (utf8 ".html")).isSome then utf8 "text/html"
  else if (strstr filename (utf8 ".gif")).isSome then utf8 "image/gif"
  else if (strstr filename (utf8 ".png")).isSome then utf8 "image/png"
  else if (strstr filename (utf8 ".jpg")).isSome then utf8 "image/jpeg"
  else if (strstr filename (utf8 ".mp4")).isSome then utf8 "video/mp4"
  else utf8 "text/plain"

/-- The HTML body `clienterror` builds with its five `sprintf` calls.  In the
source the second format is written as three adjacent literals, which the
compiler joins into `<body bgcolor=ffffff>`. -/
def clienterror_body (cause errnum shortmsg longmsg : CStr) : CStr :=
  let body := utf8 "<html><title>Tiny Error</title>"
  let body := body ++ utf8 "<body bgcolor=ffffff>\r\n"
  let body := body ++ errnum ++ utf8 ": " ++ shortmsg ++ utf8 "\r\n"
  let body := body ++ utf8 "<p>" ++ longmsg ++ utf8 ": " ++ cause ++ utf8 "\r\n"
  body ++ utf8 "<hr><em>The Tiny Web server</em>\r\n"

/-- The function `clienterror`: four `Rio_writen` calls. -/
def clienterror (cause errnum shortmsg longmsg : CStr) : List Event :=
  let body := clienterror_body cause errnum shortmsg longmsg
  [ Event.rio_writen (utf8 "HTTP/1.0 " ++ errnum ++ utf8 " " ++ shortmsg ++ utf8 "\r\n"),
    Event.rio_writen (utf8 "Content-type: text/html\r\n"),
    Event.rio_writen (utf8 "Content-length: " ++ fmt_d (toInt32 body.length) ++ utf8 "\r\n\r\n"),
    Event.rio_writen body ]

/-- The function `read_requesthdrs` on the lines still to be read: the lines left
once the loop has seen `"\r\n"`.  At end of input `Rio_readlineb` leaves `buf`
as it is and the loop cannot end. -/
def read_requesthdrs : List (List Nat) → Option (List (List Nat))
  | [] => none
  | buf :: rest => if strcmp (cstr buf) (utf8 "\r\n") ≠ 0 then read_requesthdrs rest else some rest

/-- The response head `serve_static` assembles in `buf`. -/
def serve_static_head (filename : CStr) (filesize : Int) : CStr :=
  let filetype := get_filetype filename
  let buf := utf8 "HTTP/1.0 200 OK\r\n"
  let buf := buf ++ utf8 "Server: Tiny Web Server\r\n"
  let buf := buf ++ utf8 "Connection: close\r\n"
  let buf := buf ++ utf8 "Content-length: " ++ fmt_d filesize ++ utf8 "\r\n"
  buf ++ utf8 "Content-type: " ++ filetype ++ utf8 "\r\n\r\n"

/-- The function `serve_static`.  `Mmap(0, filesize, ...)` takes its length as a
`size_t`: `mmap` rejects the length 0, and a negative `filesize` becomes a
length beyond any address space, so when `filesize` is not positive the
wrapper `Mmap` ends the process, after the head was sent and the file opened.
Otherwise the mapping holds the first `filesize` bytes of the file and
`Rio_writen` sends them. -/
def serve_static (w : World) (filename : CStr) (filesize : Int) (method : CStr) : List Event :=
  Event.rio_writen (serve_static_head filename filesize) ::
    (if strcasecmp method (utf8 "GET") = 0 then
      if filesize ≤ 0 then [Event.fopen filename, Event.exit]
      else [Event.fopen filename, Event.rio_writen ((w.content filename).take filesize.toNat)]
    else [])

/-- The function `serve_dynamic`. -/
def serve_dynamic (w : World) (filename cgiargs method : CStr) : List Event :=
  [ Event.rio_writen (utf8 "HTTP/1.0 200 OK\r\n"),
    Event.rio_writen (utf8 "Server: Tiny Web Server\r\n"),
    Event.execve filename cgiargs (w.run filename cgiargs) ] ++
    (if strcasecmp method (utf8 "HEAD") ≠ 0 then
      let buf := utf8 "Connection: close\r\n"
      [ Event.rio_writen buf,
        Event.rio_writen (utf8 "Content-length: " ++ fmt_d (toInt32 buf.length) ++ utf8 "\r\n"),
        Event.rio_writen (utf8 "Content-type: text/html\r\n\r\n") ]
    else [])

/-- The macro `S_ISREG` of `<sys/stat.h>`: `(m & S_IFMT) == S_IFREG`. -/
def S_ISREG (m : Nat) : Bool :=
  m &&& 0o170000 == 0o100000

/-- The owner-read permission bit. -/
def S_IRUSR : Nat := 0o400

/-- The owner-execute permission bit. -/
def S_IXUSR : Nat := 0o100

/-- The function `doit` on the lines of the connection: the events and the lines
left unread.  The handler returns to `main` unless the last event is
`Event.exit`.  `none`: the handler reads a buffer `sscanf` did not fill, or
`read_requesthdrs` does not return.  The `uri` handed to `parse_uri` is a
token `sscanf` stored, hence not empty, and the byte in front of it is never
read: `0` stands for it. -/
def doit (w : World) (input : List (List Nat)) : Option (List Event × List (List Nat)) :=
  match input with
  | [] => none
  | buf :: rest =>
    match sscanf3 (cstr buf) with
    | [] => none
    | method :: args =>
      if strcasecmp method (utf8 "GET") ≠ 0 ∧ strcasecmp method (utf8 "HEAD") ≠ 0 then
        some (clienterror method (utf8 "501") (utf8 "Not implemented")
          (utf8 "Tiny does not implement this method"), rest)
      else
        match read_requesthdrs rest with
        | none => none
        | some rest1 =>
          match args with
          | [] => none
          | uri :: _ =>
            let t := parse_uri 0 uri
            let pre := [Event.resolve uri, Event.stat t.filename]
            match w.stat t.filename with
            | none =>
              some (pre ++ clienterror t.filename (utf8 "404") (utf8 "Not found")
                (utf8 "Tiny couldn’t find this file"), rest1)
            | some sbuf =>
              if t.is_static ≠ 0 then
                if !(S_ISREG sbuf.st_mode) || (S_IRUSR &&& sbuf.st_mode) == 0 then
                  some (pre ++ clienterror t.filename (utf8 "403") (utf8 "Forbidden")
                    (utf8 "Tiny couldn’t read the file"), rest1)
                else
                  some (pre ++ serve_static w t.filename (toInt32 sbuf.st_size) method, rest1)
              else
                if !(S_ISREG sbuf.st_mode) || (S_IXUSR &&& sbuf.st_mode) == 0 then
                  some (pre ++ clienterror t.filename (utf8 "403") (utf8 "Forbidden")
                    (utf8 "Tiny couldn’t run the CGI program"), rest1)
                else
                  some (pre ++ serve_dynamic w t.filename t.cgiargs method, rest1)

/-- The status code of a response: the text between `"HTTP/1.0 "` and the next
space, when the response starts with `"HTTP/1.0 "`. -/
def status (response : List Nat) : Option CStr :=
  if (utf8 "HTTP/1.0 ").isPrefixOf response then
    some ((response.drop 9).takeWhile fun b => b != 32)
  else none

/-- A sample world: `./home.html` (10 bytes, mode 0644), the empty file
`./empty.txt` (mode 0644) and the program `./cgi-bin/adder` (8000 bytes, mode
0755), which prints its query string. -/
def world0 : World where
  stat := fun p =>
    if p = utf8 "./home.html" then some ⟨0o100644, 10⟩
    else if p = utf8 "./cgi-bin/adder" then some ⟨0o100755, 8000⟩
    else if p = utf8 "./empty.txt" then some ⟨0o100644, 0⟩
    else none
  content := fun p =>
    if p = utf8 "./home.html" then utf8 "<p>hi</p>\n"
    else if p = utf8 "./cgi-bin/adder" then List.replicate 8000 0
    else []
  run := fun p q => if p = utf8 "./cgi-bin/adder" then utf8 "sum of " ++ q else []
  size_eq := by
    intro p sbuf h
    have h10 : (utf8 "<p>hi</p>\n").length = 10 := by decide
    beta_reduce at h ⊢
    split_ifs at h with h1 h2 h3
    · cases h
      rw [if_pos h1]
      exact h10
    · cases h
      rw [if_neg h1, if_pos h2, List.length_replicate]
    · cases h
      rw [if_neg h1, if_neg h2]
      rfl

/-- A world whose only file, `./big.bin` (mode 0644), has `2^32 + 5` bytes, all
equal to 120. -/
def world_big : World where
  stat := fun p => if p = utf8 "./big.bin" then some ⟨0o100644, 2 ^ 32 + 5⟩ else none
  content := fun p => if p = utf8 "./big.bin" then List.replicate (2 ^ 32 + 5) 120 else []
  run := fun _ _ => []
  size_eq := by
    intro p sbuf h
    beta_reduce at h ⊢
    split_ifs at h with h1
    cases h
    rw [if_pos h1, List.length_replicate]

/-- The segments of a path, that is the pieces between its slashes; `cur` holds
the bytes of the segment being read. -/
def segments_from : CStr → CStr → List CStr
  | [], cur => [cur]
  | c :: t, cur => if c = 47 then cur :: segments_from t [] else segments_from t (cur ++ [c])

/-- The segments of a path. -/
def segments (path : CStr) : List CStr :=
  segments_from path []

/-- Resolution of the segments of a path from a directory `depth` levels below
the document root: an empty segment and "." stay, ".." goes one level up,
any other name one level down.  `none`: a ".." steps above the document root. -/
def descend : List CStr → Nat → Option Nat
  | [], depth => some depth
  | s :: t, depth =>
    if s = [] ∨ s = utf8 "." then descend t depth
    else if s = utf8 ".." then
      match depth with
      | 0 => none
      | d + 1 => descend t d
    else descend t (depth + 1)

/-- A path, resolved from the document root, never steps above it. -/
def under_root (path : CStr) : Bool :=
  (descend (segments path) 0).isSome

/-- The bytes of an HTTP response made of a status line, header lines and a
body: every line is followed by CRLF and an empty line precedes the body. -/
def response (status_line : CStr) (headers : List CStr) (body : List Nat) : List Nat :=
  status_line ++ utf8 "\r\n" ++ (headers.flatMap fun h => h ++ utf8 "\r\n") ++ utf8 "\r\n" ++ body

/-! ## Library functions: what they compute -/

theorem strcmp_eq_zero_iff (a b : CStr) : strcmp a b = 0 ↔ a = b := by
  induction a generalizing b with
  | nil => cases b <;> simp [strcmp]
  | cons x s ih =>
    cases b with
    | nil => simp [strcmp]
    | cons y t =>
      by_cases hxy : x = y
      · simp [strcmp, hxy, ih]
      · have : (x : Int) - (y : Int) ≠ 0 := by omega
        simp [strcmp, hxy, this]

theorem tolower_sub_ne_zero (x y : Nat) (h : tolower x ≠ tolower y) :
    (tolower x : Int) - (tolower y : Int) ≠ 0 := by
  omega

theorem strcasecmp_eq_zero_iff (a b : CStr) :
    strcasecmp a b = 0 ↔ a.map tolower = b.map tolower := by
  induction a generalizing b with
  | nil => cases b <;> simp [strcasecmp]
  | cons x s ih =>
    cases b with
    | nil => simp [strcasecmp]
    | cons y t =>
      by_cases hxy : tolower x = tolower y
      · simp [strcasecmp, hxy, ih]
      · simp [strcasecmp, hxy, tolower_sub_ne_zero x y hxy]

theorem strstr_isSome_iff (hay needle : CStr) :
    (strstr hay needle).isSome ↔ needle <:+: hay := by
  induction hay with
  | nil =>
    unfold strstr
    cases needle <;> simp [List.isPrefixOf]
  | cons x t ih =>
    unfold strstr
    by_cases hp : needle.isPrefixOf (x :: t) = true
    · simp only [hp, if_true, Option.isSome_some, true_iff]
      exact (List.isPrefixOf_iff_prefix.mp hp).isInfix
    · simp only [hp, if_false, Bool.false_eq_true]
      rw [ih, List.infix_cons_iff]
      constructor
      · exact Or.inr
      · rintro (h | h)
        · exact absurd (List.isPrefixOf_iff_prefix.mpr h) hp
        · exact h

theorem strstr_isNone_iff (hay needle : CStr) :
    (strstr hay needle).isNone ↔ ¬ needle <:+: hay := by
  rw [← strstr_isSome_iff]
  cases strstr hay needle <;> simp

theorem index_append_of_not_mem (pre post : CStr) (c : Nat) (h : c ∉ pre) :
    index (pre ++ c :: post) c = some pre.length := by
  induction pre with
  | nil => simp [index]
  | cons x t ih =>
    have hx : x ≠ c := fun e => h (by simp [e])
    have ht : c ∉ t := fun e => h (by simp [e])
    simp [index, hx, ih ht]

theorem index_eq_none_of_not_mem (s : CStr) (c : Nat) (h : c ∉ s) : index s c = none := by
  induction s with
  | nil => simp [index]
  | cons x t ih =>
    have hx : x ≠ c := fun e => h (by simp [e])
    have ht : c ∉ t := fun e => h (by simp [e])
    simp [index, hx, ih ht]

theorem status_of_line (code rest : CStr) (h : ∀ b ∈ code, b ≠ 32) :
    status (utf8 "HTTP/1.0 " ++ code ++ 32 :: rest) = some code := by
  have hp : (utf8 "HTTP/1.0 ").isPrefixOf (utf8 "HTTP/1.0 " ++ code ++ 32 :: rest) = true := by
    rw [List.isPrefixOf_iff_prefix, List.append_assoc]
    exact List.prefix_append _ _
  have hl : (utf8 "HTTP/1.0 ").length = 9 := by decide
  have hd : (utf8 "HTTP/1.0 " ++ code ++ 32 :: rest).drop 9 = code ++ 32 :: rest := by
    rw [List.append_assoc, ← hl, List.drop_left]
  have ht : ∀ (l : CStr), (∀ b ∈ l, b ≠ 32) →
      (l ++ 32 :: rest).takeWhile (fun b => b != 32) = l := by
    intro l
    induction l with
    | nil => intro _; simp
    | cons x t ih =>
      intro hx
      have h1 : x ≠ 32 := hx x (by simp)
      have h2 : ∀ b ∈ t, b ≠ 32 := fun b hb => hx b (by simp [hb])
      rw [List.cons_append, List.takeWhile_cons, ih h2]
      simp [h1]
  simp only [status, hp, if_true, hd, ht code h]

theorem sent_clienterror (cause errnum shortmsg longmsg : CStr) :
    sent (clienterror cause errnum shortmsg longmsg) =
      utf8 "HTTP/1.0 " ++ errnum ++ utf8 " " ++ shortmsg ++ utf8 "\r\n" ++
      utf8 "Content-type: text/html\r\n" ++
      (utf8 "Content-length: " ++
        fmt_d (toInt32 (clienterror_body cause errnum shortmsg longmsg).length) ++
        utf8 "\r\n\r\n") ++
      clienterror_body cause errnum shortmsg longmsg := by
  simp [sent, clienterror]

theorem status_clienterror (cause errnum shortmsg longmsg : CStr) (h : ∀ b ∈ errnum, b ≠ 32) :
    status (sent (clienterror cause errnum shortmsg longmsg)) = some errnum := by
  have hs : utf8 " " = [32] := by decide
  rw [sent_clienterror, hs]
  simp only [List.append_assoc, List.singleton_append]
  rw [← List.append_assoc]
  exact status_of_line errnum _ h

/-! ## The request line and the method test -/

theorem lower_GET : (utf8 "GET").map tolower = utf8 "get" := by decide

theorem lower_HEAD : (utf8 "HEAD").map tolower = utf8 "head" := by decide

theorem code_no_space_501 : ∀ b ∈ utf8 "501", b ≠ 32 := by decide

theorem code_no_space_404 : ∀ b ∈ utf8 "404", b ≠ 32 := by decide

theorem code_no_space_403 : ∀ b ∈ utf8 "403", b ≠ 32 := by decide

theorem all_writes_clienterror (cause errnum shortmsg longmsg : CStr) :
    ∀ e ∈ clienterror cause errnum shortmsg longmsg, ∃ b, e = Event.rio_writen b := by
  intro e he
  simp only [clienterror, List.mem_cons, List.mem_singleton, List.not_mem_nil, or_false] at he
  rcases he with h | h | h | h <;> exact ⟨_, h⟩

theorem exit_not_mem_clienterror (cause errnum shortmsg longmsg : CStr) :
    Event.exit ∉ clienterror cause errnum shortmsg longmsg := by
  intro h
  obtain ⟨b, hb⟩ := all_writes_clienterror cause errnum shortmsg longmsg _ h
  cases hb

/-- The 501 branch of `doit`, for a request line whose first token is `method`. -/
theorem doit_501 (w : World) (buf : List Nat) (rest : List (List Nat)) (method : CStr)
    (hm : (sscanf3 (cstr buf)).head? = some method)
    (hget : method.map tolower ≠ utf8 "get")
    (hhead : method.map tolower ≠ utf8 "head") :
    doit w (buf :: rest) =
      some (clienterror method (utf8 "501") (utf8 "Not implemented")
        (utf8 "Tiny does not implement this method"), rest) := by
  have h1 : strcasecmp method (utf8 "GET") ≠ 0 := by
    rw [Ne, strcasecmp_eq_zero_iff, lower_GET]; exact hget
  have h2 : strcasecmp method (utf8 "HEAD") ≠ 0 := by
    rw [Ne, strcasecmp_eq_zero_iff, lower_HEAD]; exact hhead
  cases hsc : sscanf3 (cstr buf) with
  | nil => rw [hsc] at hm; simp at hm
  | cons m args =>
    rw [hsc] at hm
    simp only [List.head?_cons, Option.some.injEq] at hm
    subst hm
    simp only [doit, hsc]
    rw [if_pos ⟨h1, h2⟩]

/-- C1: when the method token of the request line is neither GET nor HEAD
(case-insensitively), `doit` returns after the four writes of `clienterror`
with status 501; the lines after the request line are all still unread, and
the trace holds no URI resolution, no `stat`, no file open and no program run,
whatever the file system and the rest of the input are. -/
theorem doit_unsupported_method (w : World) (buf : List Nat) (rest : List (List Nat))
    (method : CStr)
    (hm : (sscanf3 (cstr buf)).head? = some method)
    (hget : method.map tolower ≠ utf8 "get")
    (hhead : method.map tolower ≠ utf8 "head") :
    ∃ tr, doit w (buf :: rest) = some (tr, rest) ∧
      tr = clienterror method (utf8 "501") (utf8 "Not implemented")
        (utf8 "Tiny does not implement this method") ∧
      status (sent tr) = some (utf8 "501") ∧
      ∀ e ∈ tr, ∃ b, e = Event.rio_writen b :=
  ⟨_, doit_501 w buf rest method hm hget hhead, rfl,
    status_clienterror _ _ _ _ code_no_space_501, all_writes_clienterror _ _ _ _⟩

theorem doit_unsupported_method_witness :
    ∃ tr, doit world0 [utf8 "POST / HTTP/1.0\r\n", utf8 "Host: tiny\r\n", utf8 "\r\n"] =
        some (tr, [utf8 "Host: tiny\r\n", utf8 "\r\n"]) ∧
      tr = clienterror (utf8 "POST") (utf8 "501") (utf8 "Not implemented")
        (utf8 "Tiny does not implement this method") ∧
      status (sent tr) = some (utf8 "501") ∧
      ∀ e ∈ tr, ∃ b, e = Event.rio_writen b :=
  doit_unsupported_method world0 (utf8 "POST / HTTP/1.0\r\n")
    [utf8 "Host: tiny\r\n", utf8 "\r\n"] (utf8 "POST") (by decide) (by decide) (by decide)

/-! ## `parse_uri` -/

/-- Static branch of `parse_uri` on a non-empty URI: the byte in front of the
buffer is not read. -/
theorem parse_uri_static (before : Nat) (uri : CStr) (hne : uri ≠ [])
    (h : ¬ utf8 "cgi-bin" <:+: uri) :
    parse_uri before uri =
      ⟨1, utf8 "." ++ uri ++ (if uri.getLast? = some 47 then utf8 "home.html" else []), []⟩ := by
  have hn : (strstr uri (utf8 "cgi-bin")).isNone = true := (strstr_isNone_iff _ _).mpr h
  have he : utf8 "" = [] := by decide
  obtain ⟨c, hc⟩ : ∃ c, uri.getLast? = some c := by
    cases hg : uri.getLast? with
    | none => exact absurd (List.getLast?_eq_none_iff.mp hg) hne
    | some c => exact ⟨c, rfl⟩
  unfold parse_uri
  simp only [hn, if_true, hc, he, Option.some.injEq]
  by_cases h47 : c = 47
  · simp [h47]
  · simp [h47]

/-- C2: on the empty URI (which does not contain "cgi-bin" and has no last
character) `parse_uri` reads the byte in front of the buffer; when that byte
is a slash the path it produces is ".home.html" and not ".". -/
theorem parse_uri_empty_uri :
    ¬ utf8 "cgi-bin" <:+: utf8 "" ∧ (utf8 "").getLast? = none ∧
      parse_uri 47 (utf8 "") = ⟨1, utf8 ".home.html", utf8 ""⟩ ∧
      (parse_uri 47 (utf8 "")).filename ≠ utf8 "." ++ utf8 "" := by
  refine ⟨?_, by decide, by decide, by decide⟩
  rw [← strstr_isNone_iff]
  decide

/-- Dynamic branch of `parse_uri`. -/
theorem parse_uri_of_cgi (before : Nat) (uri : CStr) (h : utf8 "cgi-bin" <:+: uri) :
    parse_uri before uri =
      match index uri 63 with
      | some p => ⟨0, utf8 "." ++ uri.take p, uri.drop (p + 1)⟩
      | none => ⟨0, utf8 "." ++ uri, []⟩ := by
  have hn : (strstr uri (utf8 "cgi-bin")).isNone = false := by
    have := (strstr_isSome_iff uri (utf8 "cgi-bin")).mpr h
    cases hs : strstr uri (utf8 "cgi-bin") with
    | none => rw [hs] at this; simp at this
    | some v => rfl
  have he : utf8 "" = [] := by decide
  unfold parse_uri
  simp only [hn, Bool.false_eq_true, if_false, he]

/-- C3: a URI containing "cgi-bin" is Dynamic (return value 0); with a '?'
the query string is what follows the first '?' and the path is "." followed
by what precedes it; without a '?' the query string is empty and the path is
"." followed by the whole URI. -/
theorem parse_uri_dynamic (before : Nat) (uri : CStr) (h : utf8 "cgi-bin" <:+: uri) :
    (parse_uri before uri).is_static = 0 ∧
      (∀ pre post : CStr, uri = pre ++ 63 :: post → 63 ∉ pre →
        (parse_uri before uri).cgiargs = post ∧
        (parse_uri before uri).filename = utf8 "." ++ pre) ∧
      (63 ∉ uri →
        (parse_uri before uri).cgiargs = [] ∧
        (parse_uri before uri).filename = utf8 "." ++ uri) := by
  rw [parse_uri_of_cgi before uri h]
  refine ⟨?_, ?_, ?_⟩
  · cases index uri 63 <;> rfl
  · intro pre post hu hpre
    subst hu
    rw [index_append_of_not_mem pre post 63 hpre]
    simp
  · intro hno
    rw [index_eq_none_of_not_mem uri 63 hno]
    exact ⟨rfl, rfl⟩

theorem parse_uri_dynamic_witness :
    (parse_uri 0 (utf8 "/cgi-bin/adder?1&2?3")).is_static = 0 ∧
      (∀ pre post : CStr, utf8 "/cgi-bin/adder?1&2?3" = pre ++ 63 :: post → 63 ∉ pre →
        (parse_uri 0 (utf8 "/cgi-bin/adder?1&2?3")).cgiargs = post ∧
        (parse_uri 0 (utf8 "/cgi-bin/adder?1&2?3")).filename = utf8 "." ++ pre) ∧
      (63 ∉ utf8 "/cgi-bin/adder?1&2?3" →
        (parse_uri 0 (utf8 "/cgi-bin/adder?1&2?3")).cgiargs = [] ∧
        (parse_uri 0 (utf8 "/cgi-bin/adder?1&2?3")).filename =
          utf8 "." ++ utf8 "/cgi-bin/adder?1&2?3") :=
  parse_uri_dynamic 0 (utf8 "/cgi-bin/adder?1&2?3")
    ((strstr_isSome_iff _ _).mp (by decide))

/-! ## `get_filetype` -/

/-- C4: the path "./a.html.gif" ends with ".gif" and not with ".html", yet
`get_filetype` answers "text/html": it looks for ".html" anywhere in the path
before it looks for ".gif". -/
theorem get_filetype_inner_suffix :
    utf8 ".gif" <:+ utf8 "./a.html.gif" ∧ ¬ utf8 ".html" <:+ utf8 "./a.html.gif" ∧
      get_filetype (utf8 "./a.html.gif") = utf8 "text/html" ∧
      get_filetype (utf8 "./a.html.gif") ≠ utf8 "image/gif" := by
  refine ⟨?_, ?_, by decide, by decide⟩
  · rw [← List.isSuffixOf_iff_suffix]; decide
  · rw [← List.isSuffixOf_iff_suffix]; decide

/-! ## `doit` after the method test -/

theorem read_requesthdrs_append (hdrs rest1 : List (List Nat))
    (hh : ∀ l ∈ hdrs, cstr l ≠ utf8 "\r\n") :
    read_requesthdrs (hdrs ++ utf8 "\r\n" :: rest1) = some rest1 := by
  induction hdrs with
  | nil =>
    have hc : strcmp (cstr (utf8 "\r\n")) (utf8 "\r\n") = 0 := by decide
    simp [read_requesthdrs, hc]
  | cons l t ih =>
    have h1 : strcmp (cstr l) (utf8 "\r\n") ≠ 0 := by
      rw [Ne, strcmp_eq_zero_iff]; exact hh l (by simp)
    have h2 : ∀ l ∈ t, cstr l ≠ utf8 "\r\n" := fun x hx => hh x (by simp [hx])
    simp only [List.cons_append, read_requesthdrs, h1, ne_eq, not_false_eq_true, if_true]
    exact ih h2

theorem method_accepted (method : CStr)
    (hm : method.map tolower = utf8 "get" ∨ method.map tolower = utf8 "head") :
    ¬ (strcasecmp method (utf8 "GET") ≠ 0 ∧ strcasecmp method (utf8 "HEAD") ≠ 0) := by
  rintro ⟨h1, h2⟩
  rcases hm with h | h
  · exact h1 ((strcasecmp_eq_zero_iff _ _).mpr (by rw [h, lower_GET]))
  · exact h2 ((strcasecmp_eq_zero_iff _ _).mpr (by rw [h, lower_HEAD]))

/-- The branch of `doit` taken when `stat` fails. -/
theorem doit_404 (w : World) (buf : List Nat) (hdrs rest1 : List (List Nat))
    (method uri : CStr) (args : List CStr)
    (hs : sscanf3 (cstr buf) = method :: uri :: args)
    (hm : method.map tolower = utf8 "get" ∨ method.map tolower = utf8 "head")
    (hh : ∀ l ∈ hdrs, cstr l ≠ utf8 "\r\n")
    (hstat : w.stat (parse_uri 0 uri).filename = none) :
    doit w (buf :: (hdrs ++ utf8 "\r\n" :: rest1)) =
      some ([Event.resolve uri, Event.stat (parse_uri 0 uri).filename] ++
        clienterror (parse_uri 0 uri).filename (utf8 "404") (utf8 "Not found")
          (utf8 "Tiny couldn’t find this file"), rest1) := by
  simp only [doit, hs, if_neg (method_accepted method hm),
    read_requesthdrs_append hdrs rest1 hh, hstat]

/-- The branches of `doit` taken when `stat` succeeds. -/
theorem doit_found (w : World) (buf : List Nat) (hdrs rest1 : List (List Nat))
    (method uri : CStr) (args : List CStr) (sbuf : Stat)
    (hs : sscanf3 (cstr buf) = method :: uri :: args)
    (hm : method.map tolower = utf8 "get" ∨ method.map tolower = utf8 "head")
    (hh : ∀ l ∈ hdrs, cstr l ≠ utf8 "\r\n")
    (hstat : w.stat (parse_uri 0 uri).filename = some sbuf) :
    doit w (buf :: (hdrs ++ utf8 "\r\n" :: rest1)) =
      some ([Event.resolve uri, Event.stat (parse_uri 0 uri).filename] ++
        (if (parse_uri 0 uri).is_static ≠ 0 then
          if (!(S_ISREG sbuf.st_mode) || (S_IRUSR &&& sbuf.st_mode) == 0) = true then
            clienterror (parse_uri 0 uri).filename (utf8 "403") (utf8 "Forbidden")
              (utf8 "Tiny couldn’t read the file")
          else serve_static w (parse_uri 0 uri).filename (toInt32 sbuf.st_size) method
        else
          if (!(S_ISREG sbuf.st_mode) || (S_IXUSR &&& sbuf.st_mode) == 0) = true then
            clienterror (parse_uri 0 uri).filename (utf8 "403") (utf8 "Forbidden")
              (utf8 "Tiny couldn’t run the CGI program")
          else serve_dynamic w (parse_uri 0 uri).filename (parse_uri 0 uri).cgiargs method),
        rest1) := by
  simp only [doit, hs, if_neg (method_accepted method hm),
    read_requesthdrs_append hdrs rest1 hh, hstat]
  split_ifs <;> rfl

theorem sent_cons_other (tr : List Event) (uri path : CStr) :
    sent (Event.resolve uri :: Event.stat path :: tr) = sent tr := rfl

theorem status_serve_static (w : World) (filename : CStr) (filesize : Int) (method : CStr) :
    status (sent (serve_static w filename filesize method)) = some (utf8 "200") := by
  have h : ∃ rest, sent (serve_static w filename filesize method) =
      utf8 "HTTP/1.0 " ++ utf8 "200" ++ 32 :: rest := by
    have h0 : utf8 "HTTP/1.0 200 OK\r\n" = utf8 "HTTP/1.0 " ++ utf8 "200" ++ 32 :: utf8 "OK\r\n" := by
      decide
    refine ⟨utf8 "OK\r\n" ++ (utf8 "Server: Tiny Web Server\r\n" ++
      (utf8 "Connection: close\r\n" ++ (utf8 "Content-length: " ++ (fmt_d filesize ++
      (utf8 "\r\n" ++ (utf8 "Content-type: " ++ (get_filetype filename ++
      (utf8 "\r\n\r\n" ++ sent ((serve_static w filename filesize method).drop 1))))))))), ?_⟩
    simp only [serve_static, serve_static_head, sent, h0, List.append_assoc, List.cons_append,
      List.drop_succ_cons, List.drop_zero]
  obtain ⟨rest, hr⟩ := h
  rw [hr]
  exact status_of_line _ _ (by decide)

theorem status_serve_dynamic (w : World) (filename cgiargs method : CStr) :
    status (sent (serve_dynamic w filename cgiargs method)) = some (utf8 "200") := by
  have h : ∃ rest, sent (serve_dynamic w filename cgiargs method) =
      utf8 "HTTP/1.0 " ++ utf8 "200" ++ 32 :: rest := by
    have h0 : utf8 "HTTP/1.0 200 OK\r\n" = utf8 "HTTP/1.0 " ++ utf8 "200" ++ 32 :: utf8 "OK\r\n" := by
      decide
    refine ⟨utf8 "OK\r\n" ++ sent ((serve_dynamic w filename cgiargs method).drop 1), ?_⟩
    simp only [serve_dynamic, sent, h0, List.append_assoc, List.cons_append, List.drop_succ_cons,
      List.drop_zero]
  obtain ⟨rest, hr⟩ := h
  rw [hr]
  exact status_of_line _ _ (by decide)

/-! ## Static content -/

theorem toInt32_of_lt (n : Nat) (h : n < 2 ^ 31) : toInt32 n = (n : Int) := by
  have h1 : n % 2 ^ 32 = n := Nat.mod_eq_of_lt (by omega)
  unfold toInt32
  rw [h1, if_pos h]

theorem fmt_d_natCast (n : Nat) : fmt_d (n : Int) = decimal n := rfl

/-- C5: `./big.bin` is a regular, owner-readable file of 4294967301 bytes;
to `GET /big.bin` the server answers "Content-length: 5" and sends only the
first five bytes of the file, because the size goes through an `int`. -/
theorem doit_static_size_truncated :
    world_big.stat (utf8 "./big.bin") = some ⟨0o100644, 4294967301⟩ ∧
      (world_big.content (utf8 "./big.bin")).length = 4294967301 ∧
      (doit world_big [utf8 "GET /big.bin HTTP/1.0\r\n", utf8 "\r\n"]).map
          (fun r => sent r.1) =
        some (utf8 "HTTP/1.0 200 OK\r\nServer: Tiny Web Server\r\nConnection: close\r\nContent-length: 5\r\nContent-type: text/plain\r\n\r\n" ++
          [120, 120, 120, 120, 120]) := by
  refine ⟨by decide, ?_, ?_⟩
  · have hcont : world_big.content (utf8 "./big.bin") = List.replicate (2 ^ 32 + 5) 120 := by
      show (if utf8 "./big.bin" = utf8 "./big.bin" then List.replicate (2 ^ 32 + 5) 120
        else []) = _
      rw [if_pos rfl]
    rw [hcont, List.length_replicate]
    norm_num
  · have hs : sscanf3 (cstr (utf8 "GET /big.bin HTTP/1.0\r\n")) =
        [utf8 "GET", utf8 "/big.bin", utf8 "HTTP/1.0"] := by decide
    have hp : parse_uri 0 (utf8 "/big.bin") = ⟨1, utf8 "./big.bin", []⟩ := by decide
    have hstat : world_big.stat (parse_uri 0 (utf8 "/big.bin")).filename =
        some ⟨0o100644, 4294967301⟩ := by rw [hp]; decide
    have hd := doit_found world_big (utf8 "GET /big.bin HTTP/1.0\r\n") [] []
      (utf8 "GET") (utf8 "/big.bin") [utf8 "HTTP/1.0"] ⟨0o100644, 4294967301⟩ hs
      (Or.inl (by decide)) (by simp) hstat
    have hi : toInt32 4294967301 = 5 := by decide
    have hc : strcasecmp (utf8 "GET") (utf8 "GET") = 0 := by decide
    have hperm : (!(S_ISREG 0o100644) || (S_IRUSR &&& 0o100644) == 0) = false := by decide
    have hhead : serve_static_head (utf8 "./big.bin") 5 =
        utf8 "HTTP/1.0 200 OK\r\nServer: Tiny Web Server\r\nConnection: close\r\nContent-length: 5\r\nContent-type: text/plain\r\n\r\n" := by
      decide
    have hcont : world_big.content (utf8 "./big.bin") = List.replicate (2 ^ 32 + 5) 120 := by
      show (if utf8 "./big.bin" = utf8 "./big.bin" then List.replicate (2 ^ 32 + 5) 120
        else []) = _
      rw [if_pos rfl]
    have htake : (List.replicate (2 ^ 32 + 5) 120).take 5 = [120, 120, 120, 120, 120] := by
      rw [List.take_replicate]
      rfl
    rw [List.nil_append] at hd
    rw [hd, hp]
    simp only [ne_eq, one_ne_zero, not_false_eq_true, if_true, hperm, Bool.false_eq_true,
      if_false, hi, serve_static, hc, hhead, hcont, Option.map_some', List.cons_append,
      List.nil_append, sent, Int.toNat_ofNat, htake, List.append_nil]
    rfl

/-! ## Missing and forbidden targets -/

/-- C6, as stated, fails: `./missing.html` does not exist, and the request
`POST /missing.html` is answered with status 501, not 404. -/
theorem doit_post_missing_is_501 :
    world0.stat (parse_uri 0 (utf8 "/missing.html")).filename = none ∧
      sscanf3 (cstr (utf8 "POST /missing.html HTTP/1.0\r\n")) =
        [utf8 "POST", utf8 "/missing.html", utf8 "HTTP/1.0"] ∧
      (doit world0 [utf8 "POST /missing.html HTTP/1.0\r\n", utf8 "\r\n"]).map
          (fun r => status (sent r.1)) = some (some (utf8 "501")) ∧
      (doit world0 [utf8 "POST /missing.html HTTP/1.0\r\n", utf8 "\r\n"]).map
          (fun r => status (sent r.1)) ≠ some (some (utf8 "404")) := by
  refine ⟨by decide, by decide, by decide, by decide⟩

/-- C6, amended: for every GET or HEAD request (any case) with a terminated
header block whose resolved path does not exist, Static or Dynamic, `doit`
returns (its trace has no `Event.exit`) and the response has status 404. -/
theorem doit_not_found (w : World) (buf : List Nat) (hdrs rest1 : List (List Nat))
    (method uri : CStr) (args : List CStr)
    (hs : sscanf3 (cstr buf) = method :: uri :: args)
    (hm : method.map tolower = utf8 "get" ∨ method.map tolower = utf8 "head")
    (hh : ∀ l ∈ hdrs, cstr l ≠ utf8 "\r\n")
    (hstat : w.stat (parse_uri 0 uri).filename = none) :
    ∃ tr, doit w (buf :: (hdrs ++ utf8 "\r\n" :: rest1)) = some (tr, rest1) ∧
      status (sent tr) = some (utf8 "404") ∧ Event.exit ∉ tr := by
  refine ⟨_, doit_404 w buf hdrs rest1 method uri args hs hm hh hstat, ?_, ?_⟩
  · rw [List.cons_append, List.cons_append, List.nil_append, sent_cons_other]
    exact status_clienterror _ _ _ _ code_no_space_404
  · intro h
    simp only [List.cons_append, List.nil_append, List.mem_cons] at h
    rcases h with h | h | h
    · cases h
    · cases h
    · exact exit_not_mem_clienterror _ _ _ _ h

theorem doit_not_found_witness :
    ∃ tr, doit world0 (utf8 "head /cgi-bin/nothing?x HTTP/1.0\r\n" ::
        ([utf8 "Host: tiny\r\n"] ++ utf8 "\r\n" :: [])) = some (tr, []) ∧
      status (sent tr) = some (utf8 "404") ∧ Event.exit ∉ tr :=
  doit_not_found world0 (utf8 "head /cgi-bin/nothing?x HTTP/1.0\r\n") [utf8 "Host: tiny\r\n"] []
    (utf8 "head") (utf8 "/cgi-bin/nothing?x") [utf8 "HTTP/1.0"] (by decide)
    (Or.inr (by decide)) (by decide) (by decide)

theorem parse_uri_is_static_cases (before : Nat) (uri : CStr) :
    (parse_uri before uri).is_static = 1 ∨ (parse_uri before uri).is_static = 0 := by
  unfold parse_uri
  by_cases hn : (strstr uri (utf8 "cgi-bin")).isNone = true
  · left
    simp only [hn, if_true]
    split_ifs <;> rfl
  · right
    simp only [hn, if_false, Bool.false_eq_true]
    cases index uri 63 <;> rfl

/-- The process ends inside `serve_static` exactly for GET with a size that is
not positive. -/
theorem exit_mem_serve_static (w : World) (filename : CStr) (filesize : Int) (method : CStr) :
    Event.exit ∈ serve_static w filename filesize method ↔
      (method.map tolower = utf8 "get" ∧ filesize ≤ 0) := by
  by_cases hg : method.map tolower = utf8 "get"
  · have hc : strcasecmp method (utf8 "GET") = 0 :=
      (strcasecmp_eq_zero_iff _ _).mpr (by rw [hg, lower_GET])
    by_cases hz : filesize ≤ 0
    · simp [serve_static, hc, hg, hz]
    · simp [serve_static, hc, hg, hz]
  · have hc : strcasecmp method (utf8 "GET") ≠ 0 := by
      rw [Ne, strcasecmp_eq_zero_iff, lower_GET]; exact hg
    simp [serve_static, hc, hg]

theorem exit_not_mem_serve_dynamic (w : World) (filename cgiargs method : CStr) :
    Event.exit ∉ serve_dynamic w filename cgiargs method := by
  unfold serve_dynamic
  split_ifs <;> simp

/-- C7: for every GET or HEAD request with a terminated header block whose
resolved path exists, the response of `doit` has status 403 exactly when the
file is not a regular file or lacks the bit its kind requires (`S_IRUSR` for a
Static target, `S_IXUSR` for a Dynamic one); in that case the only events after
`stat` are those of `clienterror`, and otherwise they are those of the matching
content server, with status 200.  The handler returns to `main` in every case
but one: a GET for a readable regular file whose size, as an `int`, is not
positive (an empty file), where `Mmap` ends the process after the 200 head. -/
theorem doit_permission (w : World) (buf : List Nat) (hdrs rest1 : List (List Nat))
    (method uri : CStr) (args : List CStr) (sbuf : Stat)
    (hs : sscanf3 (cstr buf) = method :: uri :: args)
    (hm : method.map tolower = utf8 "get" ∨ method.map tolower = utf8 "head")
    (hh : ∀ l ∈ hdrs, cstr l ≠ utf8 "\r\n")
    (hstat : w.stat (parse_uri 0 uri).filename = some sbuf) :
    ∃ tr, doit w (buf :: (hdrs ++ utf8 "\r\n" :: rest1)) =
        some ([Event.resolve uri, Event.stat (parse_uri 0 uri).filename] ++ tr, rest1) ∧
      (status (sent tr) = some (utf8 "403") ↔
        (S_ISREG sbuf.st_mode = false ∨
          (if (parse_uri 0 uri).is_static = 1 then S_IRUSR &&& sbuf.st_mode = 0
            else S_IXUSR &&& sbuf.st_mode = 0))) ∧
      ((S_ISREG sbuf.st_mode = false ∨
          (if (parse_uri 0 uri).is_static = 1 then S_IRUSR &&& sbuf.st_mode = 0
            else S_IXUSR &&& sbuf.st_mode = 0)) →
        ∃ longmsg, tr = clienterror (parse_uri 0 uri).filename (utf8 "403") (utf8 "Forbidden")
          longmsg) ∧
      (¬ (S_ISREG sbuf.st_mode = false ∨
          (if (parse_uri 0 uri).is_static = 1 then S_IRUSR &&& sbuf.st_mode = 0
            else S_IXUSR &&& sbuf.st_mode = 0)) →
        status (sent tr) = some (utf8 "200") ∧
        tr = if (parse_uri 0 uri).is_static = 1 then
            serve_static w (parse_uri 0 uri).filename (toInt32 sbuf.st_size) method
          else serve_dynamic w (parse_uri 0 uri).filename (parse_uri 0 uri).cgiargs method) ∧
      (Event.exit ∈ tr ↔
        (¬ (S_ISREG sbuf.st_mode = false ∨
          (if (parse_uri 0 uri).is_static = 1 then S_IRUSR &&& sbuf.st_mode = 0
            else S_IXUSR &&& sbuf.st_mode = 0)) ∧
          (parse_uri 0 uri).is_static = 1 ∧ method.map tolower = utf8 "get" ∧
          toInt32 sbuf.st_size ≤ 0)) := by
  have hne : utf8 "200" ≠ utf8 "403" := by decide
  refine ⟨_, doit_found w buf hdrs rest1 method uri args sbuf hs hm hh hstat, ?_⟩
  rcases parse_uri_is_static_cases 0 uri with h1 | h0
  · simp only [h1, ne_eq, one_ne_zero, not_false_eq_true, if_true]
    by_cases hc : (!(S_ISREG sbuf.st_mode) || (S_IRUSR &&& sbuf.st_mode) == 0) = true
    · have hd : S_ISREG sbuf.st_mode = false ∨ S_IRUSR &&& sbuf.st_mode = 0 := by
        simpa using hc
      simp only [hc, if_true]
      refine ⟨⟨fun _ => hd, fun _ => status_clienterror _ _ _ _ code_no_space_403⟩,
        fun _ => ⟨_, rfl⟩, fun hn => absurd hd hn, ?_⟩
      constructor
      · intro h
        exact absurd h (exit_not_mem_clienterror _ _ _ _)
      · intro h
        exact absurd hd h.1
    · have hd : ¬ (S_ISREG sbuf.st_mode = false ∨ S_IRUSR &&& sbuf.st_mode = 0) := by
        simpa using hc
      simp only [hc, if_false, Bool.false_eq_true]
      refine ⟨⟨fun h => ?_, fun h => absurd h hd⟩, fun h => absurd h hd,
        fun _ => ⟨status_serve_static _ _ _ _, trivial⟩, ?_⟩
      · rw [status_serve_static] at h
        exact absurd (Option.some.inj h) hne
      · rw [exit_mem_serve_static]
        constructor
        · intro h
          exact ⟨hd, trivial, h.1, h.2⟩
        · intro h
          exact ⟨h.2.2.1, h.2.2.2⟩
  · simp only [h0, ne_eq, not_true_eq_false, if_false, zero_ne_one]
    by_cases hc : (!(S_ISREG sbuf.st_mode) || (S_IXUSR &&& sbuf.st_mode) == 0) = true
    · have hd : S_ISREG sbuf.st_mode = false ∨ S_IXUSR &&& sbuf.st_mode = 0 := by
        simpa using hc
      simp only [hc, if_true]
      refine ⟨⟨fun _ => hd, fun _ => status_clienterror _ _ _ _ code_no_space_403⟩,
        fun _ => ⟨_, rfl⟩, fun hn => absurd hd hn, ?_⟩
      constructor
      · intro h
        exact absurd h (exit_not_mem_clienterror _ _ _ _)
      · intro h
        exact absurd hd h.1
    · have hd : ¬ (S_ISREG sbuf.st_mode = false ∨ S_IXUSR &&& sbuf.st_mode = 0) := by
        simpa using hc
      simp only [hc, if_false, Bool.false_eq_true]
      refine ⟨⟨fun h => ?_, fun h => absurd h hd⟩, fun h => absurd h hd,
        fun _ => ⟨status_serve_dynamic _ _ _ _, trivial⟩, ?_⟩
      · rw [status_serve_dynamic] at h
        exact absurd (Option.some.inj h) hne
      · constructor
        · intro h
          exact absurd h (exit_not_mem_serve_dynamic _ _ _ _)
        · intro h
          exact absurd h.2.1 (by decide)

theorem doit_permission_witness :
    (∃ tr, doit world0 (utf8 "GET /home.html HTTP/1.0\r\n" ::
        ([utf8 "Host: tiny\r\n"] ++ utf8 "\r\n" :: [])) =
        some ([Event.resolve (utf8 "/home.html"),
          Event.stat (parse_uri 0 (utf8 "/home.html")).filename] ++ tr, []) ∧
      status (sent tr) = some (utf8 "200") ∧
      tr = serve_static world0 (utf8 "./home.html") 10 (utf8 "GET") ∧
      Event.exit ∉ tr) ∧
    (∃ tr, doit world0 (utf8 "GET /empty.txt HTTP/1.0\r\n" :: ([] ++ utf8 "\r\n" :: [])) =
        some ([Event.resolve (utf8 "/empty.txt"),
          Event.stat (parse_uri 0 (utf8 "/empty.txt")).filename] ++ tr, []) ∧
      status (sent tr) = some (utf8 "200") ∧
      tr = [Event.rio_writen (serve_static_head (utf8 "./empty.txt") 0),
        Event.fopen (utf8 "./empty.txt"), Event.exit]) := by
  constructor
  · obtain ⟨tr, h1, _, _, h4, h6⟩ := doit_permission world0 (utf8 "GET /home.html HTTP/1.0\r\n")
      [utf8 "Host: tiny\r\n"] [] (utf8 "GET") (utf8 "/home.html") [utf8 "HTTP/1.0"]
      ⟨0o100644, 10⟩ (by decide) (Or.inl (by decide)) (by decide) (by decide)
    have h5 := h4 (by decide)
    refine ⟨tr, h1, h5.1, ?_, ?_⟩
    · rw [h5.2]
      decide
    · intro h
      have h7 := (h6.mp h).2.2.2
      exact absurd h7 (by decide)
  · obtain ⟨tr, h1, _, _, h4, _⟩ := doit_permission world0 (utf8 "GET /empty.txt HTTP/1.0\r\n")
      [] [] (utf8 "GET") (utf8 "/empty.txt") [utf8 "HTTP/1.0"]
      ⟨0o100644, 0⟩ (by decide) (Or.inl (by decide)) (by decide) (by decide)
    have h5 := h4 (by decide)
    refine ⟨tr, h1, h5.1, ?_⟩
    rw [h5.2]
    decide

/-! ## `clienterror` -/

theorem clienterror_body_length (cause errnum shortmsg longmsg : CStr) :
    (clienterror_body cause errnum shortmsg longmsg).length =
      cause.length + errnum.length + shortmsg.length + longmsg.length + 99 := by
  have h1 : (utf8 "<html><title>Tiny Error</title>").length = 31 := by decide
  have h2 : (utf8 "<body bgcolor=ffffff>\r\n").length = 23 := by decide
  have h3 : (utf8 ": ").length = 2 := by decide
  have h4 : (utf8 "\r\n").length = 2 := by decide
  have h5 : (utf8 "<p>").length = 3 := by decide
  have h6 : (utf8 "<hr><em>The Tiny Web server</em>\r\n").length = 34 := by decide
  simp only [clienterror_body, List.length_append, h1, h2, h3, h4, h5, h6]
  omega

theorem clienterror_body_infix (cause errnum shortmsg longmsg : CStr) :
    errnum <:+: clienterror_body cause errnum shortmsg longmsg ∧
      shortmsg <:+: clienterror_body cause errnum shortmsg longmsg ∧
      longmsg <:+: clienterror_body cause errnum shortmsg longmsg ∧
      cause <:+: clienterror_body cause errnum shortmsg longmsg := by
  refine ⟨?_, ?_, ?_, ?_⟩
  · exact ⟨utf8 "<html><title>Tiny Error</title>" ++ utf8 "<body bgcolor=ffffff>\r\n",
      utf8 ": " ++ shortmsg ++ utf8 "\r\n" ++ utf8 "<p>" ++ longmsg ++ utf8 ": " ++ cause ++
        utf8 "\r\n" ++ utf8 "<hr><em>The Tiny Web server</em>\r\n",
      by simp only [clienterror_body, List.append_assoc]⟩
  · exact ⟨utf8 "<html><title>Tiny Error</title>" ++ utf8 "<body bgcolor=ffffff>\r\n" ++
        errnum ++ utf8 ": ",
      utf8 "\r\n" ++ utf8 "<p>" ++ longmsg ++ utf8 ": " ++ cause ++
        utf8 "\r\n" ++ utf8 "<hr><em>The Tiny Web server</em>\r\n",
      by simp only [clienterror_body, List.append_assoc]⟩
  · exact ⟨utf8 "<html><title>Tiny Error</title>" ++ utf8 "<body bgcolor=ffffff>\r\n" ++
        errnum ++ utf8 ": " ++ shortmsg ++ utf8 "\r\n" ++ utf8 "<p>",
      utf8 ": " ++ cause ++ utf8 "\r\n" ++ utf8 "<hr><em>The Tiny Web server</em>\r\n",
      by simp only [clienterror_body, List.append_assoc]⟩
  · exact ⟨utf8 "<html><title>Tiny Error</title>" ++ utf8 "<body bgcolor=ffffff>\r\n" ++
        errnum ++ utf8 ": " ++ shortmsg ++ utf8 "\r\n" ++ utf8 "<p>" ++ longmsg ++ utf8 ": ",
      utf8 "\r\n" ++ utf8 "<hr><em>The Tiny Web server</em>\r\n",
      by simp only [clienterror_body, List.append_assoc]⟩

theorem clienterror_length_field (cause errnum shortmsg longmsg : CStr)
    (hlen : cause.length + errnum.length + shortmsg.length + longmsg.length + 99 < 2 ^ 31) :
    fmt_d (toInt32 (clienterror_body cause errnum shortmsg longmsg).length) =
      decimal (clienterror_body cause errnum shortmsg longmsg).length := by
  rw [toInt32_of_lt _ (by rw [clienterror_body_length]; exact hlen), fmt_d_natCast]

/-- C8: `clienterror` writes the status line "HTTP/1.0 errnum shortmsg", then
"Content-type: text/html", then "Content-length: n" and a blank line, then the
body; the body contains errnum, shortmsg, longmsg and cause, and n is the
decimal of the byte length of the body written.  Strings are byte lists, so a
multi-byte character counts with all its bytes.  The length hypothesis says
the body length fits the `int` that `%d` prints. -/
theorem clienterror_response (cause errnum shortmsg longmsg : CStr)
    (hlen : cause.length + errnum.length + shortmsg.length + longmsg.length + 99 < 2 ^ 31) :
    ∃ body : CStr,
      clienterror cause errnum shortmsg longmsg =
        [ Event.rio_writen (utf8 "HTTP/1.0 " ++ errnum ++ utf8 " " ++ shortmsg ++ utf8 "\r\n"),
          Event.rio_writen (utf8 "Content-type: text/html\r\n"),
          Event.rio_writen (utf8 "Content-length: " ++ decimal body.length ++ utf8 "\r\n\r\n"),
          Event.rio_writen body ] ∧
      errnum <:+: body ∧ shortmsg <:+: body ∧ longmsg <:+: body ∧ cause <:+: body := by
  refine ⟨clienterror_body cause errnum shortmsg longmsg, ?_,
    clienterror_body_infix cause errnum shortmsg longmsg⟩
  simp only [clienterror, clienterror_length_field cause errnum shortmsg longmsg hlen]

theorem clienterror_response_witness :
    ∃ body : CStr,
      clienterror (utf8 "./missing.html") (utf8 "404") (utf8 "Not found")
          (utf8 "Tiny couldn’t find this file") =
        [ Event.rio_writen (utf8 "HTTP/1.0 " ++ utf8 "404" ++ utf8 " " ++ utf8 "Not found" ++
            utf8 "\r\n"),
          Event.rio_writen (utf8 "Content-type: text/html\r\n"),
          Event.rio_writen (utf8 "Content-length: " ++ decimal body.length ++ utf8 "\r\n\r\n"),
          Event.rio_writen body ] ∧
      utf8 "404" <:+: body ∧ utf8 "Not found" <:+: body ∧
      utf8 "Tiny couldn’t find this file" <:+: body ∧ utf8 "./missing.html" <:+: body :=
  clienterror_response (utf8 "./missing.html") (utf8 "404") (utf8 "Not found")
    (utf8 "Tiny couldn’t find this file") (by decide)

/-! ## Framing of the responses -/

theorem parse_uri_filename_length_le (before : Nat) (uri : CStr) :
    (parse_uri before uri).filename.length ≤ uri.length + 10 := by
  have h1 : (utf8 ".").length = 1 := by decide
  have h2 : (utf8 "home.html").length = 9 := by decide
  unfold parse_uri
  by_cases hn : (strstr uri (utf8 "cgi-bin")).isNone = true
  · simp only [hn, if_true]
    split_ifs <;> simp only [List.length_append, h1, h2] <;> omega
  · simp only [hn, if_false, Bool.false_eq_true]
    cases index uri 63 with
    | none => simp only [List.length_append, h1]; omega
    | some p => simp only [List.length_append, h1, List.length_take]; omega

/-- C10: `./cgi-bin/adder` is a regular, owner-executable file; to
`GET /cgi-bin/adder?1&2` the server answers with status 200 and runs the
program with `QUERY_STRING` "1&2", but what it sends after the status line and
the Server header is the program's output followed by three more header lines
written by the server itself, not the program's output alone. -/
theorem doit_dynamic_get_trailer :
    world0.stat (utf8 "./cgi-bin/adder") = some ⟨0o100755, 8000⟩ ∧
      doit world0 [utf8 "GET /cgi-bin/adder?1&2 HTTP/1.0\r\n", utf8 "\r\n"] =
        some ([ Event.resolve (utf8 "/cgi-bin/adder?1&2"),
          Event.stat (utf8 "./cgi-bin/adder"),
          Event.rio_writen (utf8 "HTTP/1.0 200 OK\r\n"),
          Event.rio_writen (utf8 "Server: Tiny Web Server\r\n"),
          Event.execve (utf8 "./cgi-bin/adder") (utf8 "1&2")
            (world0.run (utf8 "./cgi-bin/adder") (utf8 "1&2")),
          Event.rio_writen (utf8 "Connection: close\r\n"),
          Event.rio_writen (utf8 "Content-length: 19\r\n"),
          Event.rio_writen (utf8 "Content-type: text/html\r\n\r\n") ], []) ∧
      (doit world0 [utf8 "GET /cgi-bin/adder?1&2 HTTP/1.0\r\n", utf8 "\r\n"]).map
          (fun r => sent r.1) =
        some (utf8 "HTTP/1.0 200 OK\r\nServer: Tiny Web Server\r\n" ++
          world0.run (utf8 "./cgi-bin/adder") (utf8 "1&2") ++
          utf8 "Connection: close\r\nContent-length: 19\r\nContent-type: text/html\r\n\r\n") ∧
      (doit world0 [utf8 "GET /cgi-bin/adder?1&2 HTTP/1.0\r\n", utf8 "\r\n"]).map
          (fun r => sent r.1) ≠
        some (utf8 "HTTP/1.0 200 OK\r\nServer: Tiny Web Server\r\n" ++
          world0.run (utf8 "./cgi-bin/adder") (utf8 "1&2")) := by
  refine ⟨by decide, by decide, by decide, by decide⟩

/-- C12: for every path, query string, method and program output,
`serve_dynamic` writes the status line and the Server header, then runs the
program, then, exactly when the method is not HEAD (any case), writes
"Connection: close", "Content-length: 19" and "Content-type: text/html" with a
blank line; 19 is the length of "Connection: close\r\n", whatever the program
wrote.  For HEAD nothing follows the program's output. -/
theorem serve_dynamic_trace (w : World) (filename cgiargs method : CStr) :
    serve_dynamic w filename cgiargs method =
        [ Event.rio_writen (utf8 "HTTP/1.0 200 OK\r\n"),
          Event.rio_writen (utf8 "Server: Tiny Web Server\r\n"),
          Event.execve filename cgiargs (w.run filename cgiargs) ] ++
        (if method.map tolower = utf8 "head" then []
          else [ Event.rio_writen (utf8 "Connection: close\r\n"),
            Event.rio_writen (utf8 "Content-length: 19\r\n"),
            Event.rio_writen (utf8 "Content-type: text/html\r\n\r\n") ]) ∧
      sent (serve_dynamic w filename cgiargs method) =
        utf8 "HTTP/1.0 200 OK\r\nServer: Tiny Web Server\r\n" ++ w.run filename cgiargs ++
        (if method.map tolower = utf8 "head" then []
          else utf8 "Connection: close\r\nContent-length: 19\r\nContent-type: text/html\r\n\r\n") ∧
      (utf8 "Connection: close\r\n").length = 19 := by
  have h19 : utf8 "Content-length: " ++ fmt_d (toInt32 (utf8 "Connection: close\r\n").length) ++
      utf8 "\r\n" = utf8 "Content-length: 19\r\n" := by decide
  have h0 : utf8 "HTTP/1.0 200 OK\r\nServer: Tiny Web Server\r\n" =
      utf8 "HTTP/1.0 200 OK\r\n" ++ utf8 "Server: Tiny Web Server\r\n" := by decide
  have h1 : utf8 "Connection: close\r\nContent-length: 19\r\nContent-type: text/html\r\n\r\n" =
      utf8 "Connection: close\r\n" ++ (utf8 "Content-length: 19\r\n" ++
        utf8 "Content-type: text/html\r\n\r\n") := by decide
  by_cases hh : method.map tolower = utf8 "head"
  · have hc : strcasecmp method (utf8 "HEAD") = 0 :=
      (strcasecmp_eq_zero_iff _ _).mpr (by rw [hh, lower_HEAD])
    refine ⟨?_, ?_, by decide⟩
    · simp [serve_dynamic, hc, hh]
    · simp [serve_dynamic, hc, hh, sent, h0]
  · have hc : strcasecmp method (utf8 "HEAD") ≠ 0 := by
      rw [Ne, strcasecmp_eq_zero_iff, lower_HEAD]; exact hh
    refine ⟨?_, ?_, by decide⟩
    · simp only [serve_dynamic, hc, hh, ne_eq, not_false_eq_true, if_true, if_false, h19]
    · simp only [serve_dynamic, hc, hh, ne_eq, not_false_eq_true, if_true, if_false, h19, sent,
        h0, h1, List.cons_append, List.nil_append, List.append_assoc, List.append_nil]

/-! ## `read_requesthdrs` -/

theorem cstr_cons (a : Nat) (t : List Nat) :
    cstr (a :: t) = if a = 0 then [] else a :: cstr t := by
  unfold cstr
  rw [List.takeWhile_cons]
  by_cases ha : a = 0 <;> simp [ha]

/-- On a line that ends at its first newline, as `Rio_readlineb` delivers it,
the C string in the buffer is "\r\n" only for the line "\r\n" itself. -/
theorem cstr_eq_crlf_iff (l : List Nat) (hwf : 10 ∉ l.dropLast) :
    cstr l = utf8 "\r\n" ↔ l = utf8 "\r\n" := by
  have hc : utf8 "\r\n" = [13, 10] := by decide
  rw [hc]
  constructor
  · intro h
    cases l with
    | nil => simp [cstr] at h
    | cons a t =>
      rw [cstr_cons] at h
      by_cases ha : a = 0
      · simp [ha] at h
      · rw [if_neg ha] at h
        injection h with h1 h2
        cases t with
        | nil => simp [cstr] at h2
        | cons b u =>
          rw [cstr_cons] at h2
          by_cases hb : b = 0
          · simp [hb] at h2
          · rw [if_neg hb] at h2
            injection h2 with h3 h4
            cases u with
            | nil => rw [h1, h3]
            | cons c v =>
              exfalso
              apply hwf
              simp [List.dropLast, h3]
  · intro h
    subst h
    decide

/-- C13: when the lines after the request line are header lines, none of them
equal to "\r\n", followed by the line "\r\n" and by further input,
`read_requesthdrs` returns, having consumed the header lines and that "\r\n"
line and nothing after it, however many header lines there are; and the loop
test takes a line for the terminator exactly when the line is "\r\n".  Lines
are as `Rio_readlineb` delivers them: a newline can only be the last byte. -/
theorem read_requesthdrs_consumes (hdrs rest : List (List Nat))
    (hwf : ∀ l ∈ hdrs, 10 ∉ l.dropLast)
    (hh : ∀ l ∈ hdrs, l ≠ utf8 "\r\n") :
    read_requesthdrs (hdrs ++ utf8 "\r\n" :: rest) = some rest ∧
      ∀ l : List Nat, 10 ∉ l.dropLast →
        (strcmp (cstr l) (utf8 "\r\n") = 0 ↔ l = utf8 "\r\n") := by
  refine ⟨read_requesthdrs_append hdrs rest fun l hl hc => ?_, fun l hl => ?_⟩
  · exact hh l hl ((cstr_eq_crlf_iff l (hwf l hl)).mp hc)
  · rw [strcmp_eq_zero_iff]
    exact cstr_eq_crlf_iff l hl

theorem read_requesthdrs_consumes_witness :
    read_requesthdrs ([utf8 "Host: tiny\r\n", utf8 "Accept: */*\r\n", utf8 "\n"] ++
        utf8 "\r\n" :: [utf8 "left over\r\n", utf8 "\r\n"]) =
        some [utf8 "left over\r\n", utf8 "\r\n"] ∧
      ∀ l : List Nat, 10 ∉ l.dropLast →
        (strcmp (cstr l) (utf8 "\r\n") = 0 ↔ l = utf8 "\r\n") :=
  read_requesthdrs_consumes [utf8 "Host: tiny\r\n", utf8 "Accept: */*\r\n", utf8 "\n"]
    [utf8 "left over\r\n", utf8 "\r\n"] (by decide) (by decide)

/-! ## Lengths of the results of `parse_uri` -/

theorem index_some_takeWhile (s : CStr) (c p : Nat) (h : index s c = some p) :
    (s.takeWhile fun b => b != c).length = p ∧ p < s.length := by
  induction s generalizing p with
  | nil => simp [index] at h
  | cons x t ih =>
    by_cases hx : x = c
    · simp only [index, hx, if_true, Option.some.injEq] at h
      subst h
      have hx2 : (x != c) = false := by simp [hx]
      rw [List.takeWhile_cons, hx2]
      simp
    · simp only [index, hx, if_false, Option.map_eq_some'] at h
      obtain ⟨q, hq, hp⟩ := h
      subst hp
      have hq2 := ih q hq
      have hx2 : (x != c) = true := by simp [hx]
      rw [List.takeWhile_cons, hx2]
      simp [hq2.1, hq2.2]

theorem index_none_takeWhile (s : CStr) (c : Nat) (h : index s c = none) :
    (s.takeWhile fun b => b != c) = s := by
  induction s with
  | nil => rfl
  | cons x t ih =>
    by_cases hx : x = c
    · simp [index, hx] at h
    · simp only [index, hx, if_false, Option.map_eq_none'] at h
      have hx2 : (x != c) = true := by simp [hx]
      rw [List.takeWhile_cons, hx2, ih h]
      rfl

theorem parse_uri_cgiargs_length_le (before : Nat) (uri : CStr) :
    (parse_uri before uri).cgiargs.length ≤ uri.length := by
  have h0 : (utf8 "").length = 0 := by decide
  unfold parse_uri
  by_cases hn : (strstr uri (utf8 "cgi-bin")).isNone = true
  · simp only [hn, if_true]
    split_ifs <;> simp only [h0] <;> omega
  · simp only [hn, if_false, Bool.false_eq_true]
    cases index uri 63 with
    | none => simp only [h0]; omega
    | some p => simp only [List.length_drop]; omega

/-- C14: for every non-empty URI the path `parse_uri` writes has at most
`strlen(uri) + 10` bytes: exactly `strlen(uri) + 1` for a Static URI that does
not end in a slash, `strlen(uri) + 10` for a Static URI that does, and one more
than the part before the first '?' for a Dynamic URI; the query string has at
most `strlen(uri)` bytes; so both fit a buffer of `MAXLINE` bytes together with
the terminating NUL whenever `strlen(uri) + 11 ≤ MAXLINE`. -/
theorem parse_uri_lengths (before MAXLINE : Nat) (uri : CStr) (hne : uri ≠ []) :
    (parse_uri before uri).filename.length ≤ uri.length + 10 ∧
      (¬ utf8 "cgi-bin" <:+: uri → uri.getLast? ≠ some 47 →
        (parse_uri before uri).filename.length = uri.length + 1) ∧
      (¬ utf8 "cgi-bin" <:+: uri → uri.getLast? = some 47 →
        (parse_uri before uri).filename.length = uri.length + 10) ∧
      (utf8 "cgi-bin" <:+: uri →
        (parse_uri before uri).filename.length =
          1 + (uri.takeWhile fun b => b != 63).length) ∧
      (parse_uri before uri).cgiargs.length ≤ uri.length ∧
      (uri.length + 11 ≤ MAXLINE →
        (parse_uri before uri).filename.length + 1 ≤ MAXLINE ∧
        (parse_uri before uri).cgiargs.length + 1 ≤ MAXLINE) := by
  have h1 : (utf8 ".").length = 1 := by decide
  have h9 : (utf8 "home.html").length = 9 := by decide
  have hf := parse_uri_filename_length_le before uri
  have hq := parse_uri_cgiargs_length_le before uri
  refine ⟨hf, ?_, ?_, ?_, hq, fun hm => ⟨by omega, by omega⟩⟩
  · intro hs hl
    rw [parse_uri_static before uri hne hs, if_neg hl]
    simp only [List.length_append, h1, List.length_nil]
    omega
  · intro hs hl
    rw [parse_uri_static before uri hne hs, if_pos hl]
    simp only [List.length_append, h1, h9]
    omega
  · intro hd
    rw [parse_uri_of_cgi before uri hd]
    cases hi : index uri 63 with
    | none =>
      simp only [List.length_append, h1, index_none_takeWhile uri 63 hi]
    | some p =>
      have hp := index_some_takeWhile uri 63 p hi
      simp only [List.length_append, h1, List.length_take, hp.1]
      omega

theorem parse_uri_lengths_witness :
    (parse_uri 0 (utf8 "/cgi-bin/adder?1&2")).filename.length ≤
        (utf8 "/cgi-bin/adder?1&2").length + 10 ∧
      (parse_uri 0 (utf8 "/cgi-bin/adder?1&2")).filename.length = 1 + 14 ∧
      (parse_uri 0 (utf8 "/cgi-bin/adder?1&2")).cgiargs.length ≤
        (utf8 "/cgi-bin/adder?1&2").length ∧
      (parse_uri 0 (utf8 "/cgi-bin/adder?1&2")).filename.length + 1 ≤ 8192 ∧
      (parse_uri 0 (utf8 "/cgi-bin/adder?1&2")).cgiargs.length + 1 ≤ 8192 := by
  obtain ⟨h1, _, _, h4, h5, h6⟩ :=
    parse_uri_lengths 0 8192 (utf8 "/cgi-bin/adder?1&2") (by decide)
  have h7 := h6 (by decide)
  have h8 := h4 ((strstr_isSome_iff _ _).mp (by decide))
  have h9 : ((utf8 "/cgi-bin/adder?1&2").takeWhile fun b => b != 63).length = 14 := by decide
  rw [h9] at h8
  exact ⟨h1, h8, h5, h7.1, h7.2⟩

/-! ## The resolved path and the document root -/

theorem segments_from_no_slash (sfx cur : CStr) (hs : 47 ∉ sfx) :
    segments_from sfx cur = [cur ++ sfx] := by
  induction sfx generalizing cur with
  | nil => simp [segments_from]
  | cons x t ih =>
    have hx : x ≠ 47 := fun e => hs (by simp [e])
    have ht : 47 ∉ t := fun e => hs (by simp [e])
    simp [segments_from, hx, ih _ ht]

/-- Appending a name without slash to a path extends its last segment; the last
segment is empty when the path ends in a slash. -/
theorem segments_from_append (a sfx : CStr) (hs : 47 ∉ sfx) (cur : CStr) :
    ∃ init last, segments_from a cur = init ++ [last] ∧
      segments_from (a ++ sfx) cur = init ++ [last ++ sfx] ∧
      ((a.getLast? = some 47 ∨ (a = [] ∧ cur = [])) → last = []) := by
  induction a generalizing cur with
  | nil =>
    refine ⟨[], cur, by simp [segments_from], ?_, ?_⟩
    · simp [segments_from_no_slash sfx cur hs]
    · rintro (h | h)
      · simp at h
      · exact h.2
  | cons x t ih =>
    by_cases hx : x = 47
    · obtain ⟨init, last, h1, h2, h3⟩ := ih []
      refine ⟨cur :: init, last, ?_, ?_, ?_⟩
      · simp [segments_from, hx, h1]
      · simp [segments_from, hx, h2]
      · intro h
        apply h3
        rcases h with h | h
        · cases t with
          | nil => exact Or.inr ⟨rfl, rfl⟩
          | cons y u =>
            left
            rw [List.getLast?_cons_cons] at h
            exact h
        · simp at h
    · obtain ⟨init, last, h1, h2, h3⟩ := ih (cur ++ [x])
      refine ⟨init, last, ?_, ?_, ?_⟩
      · simp [segments_from, hx, h1]
      · simp [segments_from, hx, h2]
      · intro h
        apply h3
        rcases h with h | h
        · cases t with
          | nil =>
            simp at h
            exact absurd h hx
          | cons y u =>
            left
            rw [List.getLast?_cons_cons] at h
            exact h
        · simp at h

theorem descend_cons_stay (s : CStr) (t : List CStr) (d : Nat)
    (h : s = [] ∨ s = utf8 ".") : descend (s :: t) d = descend t d := by
  cases d <;> simp only [descend, h, if_true]

theorem descend_cons_up_zero (t : List CStr) : descend (utf8 ".." :: t) 0 = none := by
  have h1 : ¬ (utf8 ".." = [] ∨ utf8 ".." = utf8 ".") := by decide
  rw [descend, if_neg h1, if_pos rfl]

theorem descend_cons_up_succ (t : List CStr) (d : Nat) :
    descend (utf8 ".." :: t) (d + 1) = descend t d := by
  have h1 : ¬ (utf8 ".." = [] ∨ utf8 ".." = utf8 ".") := by decide
  rw [descend, if_neg h1, if_pos rfl]

theorem descend_cons_down (s : CStr) (t : List CStr) (d : Nat)
    (h1 : ¬ (s = [] ∨ s = utf8 ".")) (h2 : s ≠ utf8 "..") :
    descend (s :: t) d = descend t (d + 1) := by
  cases d <;> simp only [descend, h1, h2, if_false]

theorem descend_append (a b : List CStr) (d : Nat) :
    descend (a ++ b) d = (descend a d).bind (descend b) := by
  induction a generalizing d with
  | nil => simp [descend]
  | cons s t ih =>
    rw [List.cons_append]
    by_cases h1 : s = [] ∨ s = utf8 "."
    · rw [descend_cons_stay s _ d h1, descend_cons_stay s _ d h1, ih]
    · by_cases h2 : s = utf8 ".."
      · subst h2
        cases d with
        | zero => rw [descend_cons_up_zero, descend_cons_up_zero]; rfl
        | succ d => rw [descend_cons_up_succ, descend_cons_up_succ, ih]
      · rw [descend_cons_down s _ d h1 h2, descend_cons_down s _ d h1 h2, ih]

theorem descend_last_name (init : List CStr) (d : Nat) :
    (descend (init ++ [[] ++ utf8 "home.html"]) d).isSome = (descend (init ++ [[]]) d).isSome := by
  have h1 : ¬ (utf8 "home.html" = [] ∨ utf8 "home.html" = utf8 ".") := by decide
  have h2 : utf8 "home.html" ≠ utf8 ".." := by decide
  rw [descend_append, descend_append, List.nil_append]
  cases descend init d with
  | none => rfl
  | some e =>
    rw [Option.some_bind, Option.some_bind, descend_cons_down _ _ _ h1 h2,
      descend_cons_stay [] [] e (Or.inl rfl)]
    rfl

theorem not_cgi_of_static (before : Nat) (uri : CStr)
    (hs : (parse_uri before uri).is_static = 1) : ¬ utf8 "cgi-bin" <:+: uri := by
  intro hc
  rw [parse_uri_of_cgi before uri hc] at hs
  cases hi : index uri 63 <;> rw [hi] at hs <;> simp at hs

theorem segments_from_slash (t cur : CStr) :
    segments_from (47 :: t) cur = cur :: segments_from t [] := by
  simp [segments_from]

theorem segments_from_other (c : Nat) (t cur : CStr) (h : c ≠ 47) :
    segments_from (c :: t) cur = segments_from t (cur ++ [c]) := by
  simp [segments_from, h]

/-- C11, as stated, fails: the URI "/../etc/passwd" begins with a slash and is
resolved as Static, to the path "./../etc/passwd", whose second segment steps
above the document root. -/
theorem parse_uri_escapes_root :
    (utf8 "/../etc/passwd").head? = some 47 ∧
      parse_uri 0 (utf8 "/../etc/passwd") = ⟨1, utf8 "./../etc/passwd", utf8 ""⟩ ∧
      under_root (parse_uri 0 (utf8 "/../etc/passwd")).filename = false := by
  refine ⟨by decide, by decide, by decide⟩

/-- A path without a ".." segment never steps above the directory it starts from. -/
theorem descend_of_no_dotdot (l : List CStr) (d : Nat) (h : ∀ s ∈ l, s ≠ utf8 "..") :
    (descend l d).isSome = true := by
  induction l generalizing d with
  | nil => rfl
  | cons s t ih =>
    have hs : s ≠ utf8 ".." := h s (by simp)
    have ht : ∀ x ∈ t, x ≠ utf8 ".." := fun x hx => h x (by simp [hx])
    by_cases h1 : s = [] ∨ s = utf8 "."
    · rw [descend_cons_stay s t d h1]
      exact ih d ht
    · rw [descend_cons_down s t d h1 hs]
      exact ih (d + 1) ht

/-- The path of a Static URI that begins with a slash is under the document
root exactly when the URI is. -/
theorem under_root_static_path (rest : CStr) :
    under_root (utf8 "." ++ (47 :: rest) ++
        (if (47 :: rest).getLast? = some 47 then utf8 "home.html" else [])) =
      under_root (47 :: rest) := by
  have hdot : utf8 "." = [46] := by decide
  have hnos : 47 ∉ utf8 "home.html" := by decide
  have e1 : ∀ sfx : CStr, [46] ++ (47 :: rest) ++ sfx = 46 :: 47 :: (rest ++ sfx) := by
    intro sfx
    simp
  rw [hdot, e1]
  unfold under_root segments
  rw [segments_from_other 46 _ _ (by decide), segments_from_slash, segments_from_slash,
    List.nil_append, descend_cons_stay [46] _ 0 (Or.inr hdot.symm),
    descend_cons_stay [] _ 0 (Or.inl rfl)]
  by_cases hlast : (47 :: rest).getLast? = some 47
  · obtain ⟨init, last, h1, h2, h3⟩ := segments_from_append rest (utf8 "home.html") hnos []
    have hlast2 : rest.getLast? = some 47 ∨ (rest = [] ∧ ([] : CStr) = []) := by
      cases rest with
      | nil => exact Or.inr ⟨rfl, rfl⟩
      | cons y u =>
        left
        rw [List.getLast?_cons_cons] at hlast
        exact hlast
    have h4 := h3 hlast2
    subst h4
    rw [if_pos hlast, h1, h2]
    exact descend_last_name init 0
  · rw [if_neg hlast, List.append_nil]

/-- C11, amended: for every URI that begins with a slash and is resolved as
Static, the resolved path is "." followed by the whole URI, with "home.html"
appended after a final slash: no segment is removed.  That path stays under the
document root exactly when the "." and ".." segments of the URI itself,
resolved from the root, never step above it; in particular it stays under the
root for every such URI that has no ".." segment. -/
theorem parse_uri_static_under_root (before : Nat) (uri rest : CStr)
    (hu : uri = 47 :: rest)
    (hs : (parse_uri before uri).is_static = 1) :
    (parse_uri before uri).filename =
        utf8 "." ++ uri ++ (if uri.getLast? = some 47 then utf8 "home.html" else []) ∧
      under_root (parse_uri before uri).filename = under_root uri ∧
      ((∀ s ∈ segments uri, s ≠ utf8 "..") →
        under_root (parse_uri before uri).filename = true) := by
  have hne : uri ≠ [] := by rw [hu]; simp
  have hfile : (parse_uri before uri).filename =
      utf8 "." ++ uri ++ (if uri.getLast? = some 47 then utf8 "home.html" else []) := by
    rw [parse_uri_static before uri hne (not_cgi_of_static before uri hs)]
  have heq : under_root (parse_uri before uri).filename = under_root uri := by
    rw [hfile, hu]
    exact under_root_static_path rest
  refine ⟨hfile, heq, fun hno => ?_⟩
  rw [heq]
  exact descend_of_no_dotdot (segments uri) 0 hno

theorem parse_uri_static_under_root_witness :
    (parse_uri 0 (utf8 "/img/./docs/")).filename = utf8 "./img/./docs/home.html" ∧
      under_root (parse_uri 0 (utf8 "/img/./docs/")).filename = true ∧
      (parse_uri 0 (utf8 "/img/../docs/")).filename = utf8 "./img/../docs/home.html" ∧
      under_root (parse_uri 0 (utf8 "/img/../docs/")).filename = true ∧
      (parse_uri 0 (utf8 "/img/../../x")).filename = utf8 "./img/../../x" ∧
      under_root (parse_uri 0 (utf8 "/img/../../x")).filename = false := by
  obtain ⟨a1, _, a3⟩ := parse_uri_static_under_root 0 (utf8 "/img/./docs/")
    (utf8 "img/./docs/") (by decide) (by decide)
  obtain ⟨b1, b2, _⟩ := parse_uri_static_under_root 0 (utf8 "/img/../docs/")
    (utf8 "img/../docs/") (by decide) (by decide)
  obtain ⟨c1, c2, _⟩ := parse_uri_static_under_root 0 (utf8 "/img/../../x")
    (utf8 "img/../../x") (by decide) (by decide)
  have hb : under_root (utf8 "/img/../docs/") = true := by decide
  have hc : under_root (utf8 "/img/../../x") = false := by decide
  refine ⟨?_, a3 (by decide), ?_, ?_, ?_, ?_⟩
  · rw [a1]; decide
  · rw [b1]; decide
  · rw [b2]; exact hb
  · rw [c1]; decide
  · rw [c2]; exact hc

end Tiny
